import Mathlib

/-!
Verification of the rest/fatigue and chemistry-index derivation logic of the
NBA-GamePrediction repository (`src/data_collector.py`).

Dates are modelled as whole day numbers (`ℤ`); Python float arithmetic on the
small decimal constants involved is modelled exactly over `ℚ`.
-/

namespace NBA

/-- Python's builtin `min(a, b)` on two numbers. -/
def pymin (a b : ℚ) : ℚ := if a ≤ b then a else b

/-- Python's builtin `max(a, b)` on two numbers. -/
def pymax (a b : ℚ) : ℚ := if b ≤ a then a else b

/-! ## Rest/Fatigue Deriver (`collect_team_rest_fatigue_data`) -/

/-- One output record of the rest/fatigue deriver
(`rest_record` dict built in `collect_team_rest_fatigue_data`). -/
structure RestFatigueRecord where
  days_rest : ℤ
  is_back_to_back : Bool
  games_in_last_7_days : ℕ
  schedule_difficulty : ℚ
  fatigue_index : ℚ
  deriving Repr, DecidableEq, Inhabited

/-- `_calculate_schedule_difficulty(games_in_7_days, days_rest)`:
`game_density = min(games_in_7_days / 7.0, 1.0)`,
`rest_factor = max(0, (3 - days_rest) / 3.0)`,
result `game_density * 0.6 + rest_factor * 0.4`. -/
def calculateScheduleDifficulty (games_in_7_days : ℕ) (days_rest : ℤ) : ℚ :=
  let game_density : ℚ := pymin ((games_in_7_days : ℚ) / 7) 1
  let rest_factor : ℚ := pymax 0 ((3 - (days_rest : ℚ)) / 3)
  game_density * (6/10) + rest_factor * (4/10)

/-- `_calculate_fatigue_index(days_rest, games_in_7_days, is_back_to_back)`:
additive accumulation capped by `min(fatigue, 1.0)`. -/
def calculateFatigueIndex (days_rest : ℤ) (games_in_7_days : ℕ)
    (is_back_to_back : Bool) : ℚ :=
  let f : ℚ := 0
  let f := if is_back_to_back then f + 4/10 else f
  let f :=
    if days_rest = 0 then f + 3/10
    else if days_rest = 1 then f + 2/10
    else if days_rest = 2 then f + 1/10
    else f
  let f :=
    if 4 ≤ games_in_7_days then f + 3/10
    else if 3 ≤ games_in_7_days then f + 2/10
    else f
  pymin f 1

/-- `days_rest` for the game at index `i` of a team's date-sorted game list:
`0` when `i == 0`, else `(game_date - prev_game_date).days - 1`. -/
def daysRest (dates : List ℤ) (i : ℕ) : ℤ :=
  if i = 0 then 0 else dates.getD i 0 - dates.getD (i - 1) 0 - 1

/-- `is_back_to_back` for the game at index `i`: `False` when `i == 0`,
else `days_rest == 0`. -/
def isBackToBack (dates : List ℤ) (i : ℕ) : Bool :=
  if i = 0 then false else decide (daysRest dates i = 0)

/-- `games_in_last_7_days` for index `i`: starts at 1 (the current game) and,
scanning `j in range(max(0, i-10), i)`, adds 1 whenever
`(game_date - prev_date).days <= 7`. -/
def gamesInLast7Days (dates : List ℤ) (i : ℕ) : ℕ :=
  1 + ((List.range i).filter
    (fun j => decide (i - 10 ≤ j) &&
      decide (dates.getD i 0 - dates.getD j 0 ≤ 7))).length

/-- The full `rest_record` built for the game at index `i` of a team's
date-sorted game list. -/
def restRecord (dates : List ℤ) (i : ℕ) : RestFatigueRecord :=
  let d := daysRest dates i
  let b := isBackToBack dates i
  let g := gamesInLast7Days dates i
  { days_rest := d
    is_back_to_back := b
    games_in_last_7_days := g
    schedule_difficulty := calculateScheduleDifficulty g d
    fatigue_index := calculateFatigueIndex d g b }

/-- All rest/fatigue records produced for one team's date-sorted game list
(the inner `for i, game in enumerate(games)` loop). -/
def restRecords (dates : List ℤ) : List RestFatigueRecord :=
  (List.range dates.length).map (restRecord dates)

/-! ## Chemistry Index Deriver (`_calculate_chemistry_index`) -/

/-- One input team record of the chemistry-index deriver (`team_data` dict).
The four teamwork metrics are optional: `_calculate_chemistry_index` reads
them with `record.get(metric, 0)`, so a missing field defaults to 0. -/
structure ChemistryInput where
  team_id : ℤ
  team_name : String
  screen_assists : Option ℚ
  secondary_assists : Option ℚ
  contested_shots : Option ℚ
  deflections : Option ℚ
  deriving Repr, DecidableEq, Inhabited

/-- One output team record: the input record (mutated in place in the source,
its existing fields untouched) plus the derived fields added to it. -/
structure ChemistryOutput where
  input : ChemistryInput
  chemistry_raw : ℚ
  screen_assists_scaled : ℚ
  secondary_assists_scaled : ℚ
  contested_shots_scaled : ℚ
  deflections_scaled : ℚ
  chemistry_index : ℚ
  chemistry_percentile : ℚ
  deriving Repr, DecidableEq, Inhabited

/-- Column minimum (`MinMaxScaler.fit`'s `data_min_`, `np.min` over the
column); 0 on an empty column. -/
def colMin : List ℚ → ℚ
  | [] => 0
  | h :: t => t.foldl pymin h

/-- Column maximum (`MinMaxScaler.fit`'s `data_max_`); 0 on an empty column. -/
def colMax : List ℚ → ℚ
  | [] => 0
  | h :: t => t.foldl pymax h

/-- `MinMaxScaler(feature_range=(0, 100))` applied to one value of a column
with range `[mn, mx]`: `(v - mn) / (mx - mn) * 100`, where a zero-width
range is replaced by 1 (sklearn's `_handle_zeros_in_scale`). -/
def minMaxScale100 (mn mx v : ℚ) : ℚ :=
  (v - mn) / (if mx = mn then 1 else mx - mn) * 100

/-- `np.sort` (ascending). -/
def npSort (l : List ℚ) : List ℚ := l.insertionSort (· ≤ ·)

/-- `np.searchsorted(s, v)` with the default `side='left'` on a sorted
array `s`: the number of entries strictly below `v`. -/
def searchsortedLeft (s : List ℚ) (v : ℚ) : ℕ :=
  (s.filter (fun x => decide (x < v))).length

/-- `np.percentile(l, q)` with the default linear interpolation. -/
def npPercentile (l : List ℚ) (q : ℚ) : ℚ :=
  let s := npSort l
  if s.length = 0 then 0
  else
    let pos := q / 100 * ((s.length : ℚ) - 1)
    let k := (⌊pos⌋).toNat
    let lo := s.getD k 0
    let hi := s.getD (k + 1) lo
    lo + (pos - (⌊pos⌋ : ℚ)) * (hi - lo)

/-- The value `record.get(metric, 0)` used for each of the four metrics. -/
def metricVal (m : Option ℚ) : ℚ := m.getD 0

/-- The four metric columns of the cohort, in the order
`['screen_assists', 'secondary_assists', 'contested_shots', 'deflections']`
(the `metric_matrix` of the source, viewed column-wise). -/
def screenCol (records : List ChemistryInput) : List ℚ :=
  records.map (fun r => metricVal r.screen_assists)

def secondaryCol (records : List ChemistryInput) : List ℚ :=
  records.map (fun r => metricVal r.secondary_assists)

def contestedCol (records : List ChemistryInput) : List ℚ :=
  records.map (fun r => metricVal r.contested_shots)

def deflectionsCol (records : List ChemistryInput) : List ℚ :=
  records.map (fun r => metricVal r.deflections)

/-- Scale one value against its column's min/max. -/
def scaledIn (col : List ℚ) (v : ℚ) : ℚ :=
  minMaxScale100 (colMin col) (colMax col) v

/-- Row mean of the four scaled metrics
(`np.mean(scaled_metrics, axis=1)` for one team). -/
def chemistryScore (records : List ChemistryInput) (r : ChemistryInput) : ℚ :=
  (scaledIn (screenCol records) (metricVal r.screen_assists) +
   scaledIn (secondaryCol records) (metricVal r.secondary_assists) +
   scaledIn (contestedCol records) (metricVal r.contested_shots) +
   scaledIn (deflectionsCol records) (metricVal r.deflections)) / 4

/-- The augmented record built for one team by `_calculate_chemistry_index`. -/
def chemistryOutputFor (records : List ChemistryInput) (r : ChemistryInput) :
    ChemistryOutput :=
  let scores := records.map (chemistryScore records)
  { input := r
    chemistry_raw := chemistryScore records r
    screen_assists_scaled := scaledIn (screenCol records) (metricVal r.screen_assists)
    secondary_assists_scaled := scaledIn (secondaryCol records) (metricVal r.secondary_assists)
    contested_shots_scaled := scaledIn (contestedCol records) (metricVal r.contested_shots)
    deflections_scaled := scaledIn (deflectionsCol records) (metricVal r.deflections)
    chemistry_index := chemistryScore records r
    chemistry_percentile :=
      npPercentile scores
        ((searchsortedLeft (npSort scores) (chemistryScore records r) * 100 : ℚ) /
          (scores.length : ℚ)) }

/-- `_calculate_chemistry_index(chemistry_records)`: every input record,
in order, augmented with the derived fields. -/
def calculateChemistryIndex (records : List ChemistryInput) :
    List ChemistryOutput :=
  records.map (chemistryOutputFor records)

/-- Sample team record with all four metrics missing (used in concrete
witnesses). -/
def sampleMissing : ChemistryInput := ⟨1, "A", none, none, none, none⟩

/-- Sample team record with positive metrics (used in concrete witnesses). -/
def sampleFull : ChemistryInput := ⟨2, "B", some 1, some 2, some 3, some 4⟩

/-! ## Helper lemmas: rest/fatigue -/

theorem pymin_eq_min (a b : ℚ) : pymin a b = min a b := (min_def a b).symm

theorem pymax_eq_max (a b : ℚ) : pymax a b = max a b := by
  unfold pymax
  rcases le_total a b with h | h
  · rcases eq_or_lt_of_le h with rfl | h'
    · simp
    · rw [if_neg (not_le.mpr h'), max_eq_right h]
  · rw [if_pos h, max_eq_left h]

theorem restRecord_days_rest (dates : List ℤ) (i : ℕ) :
    (restRecord dates i).days_rest = daysRest dates i := rfl

theorem restRecord_is_back_to_back (dates : List ℤ) (i : ℕ) :
    (restRecord dates i).is_back_to_back = isBackToBack dates i := rfl

theorem restRecord_games (dates : List ℤ) (i : ℕ) :
    (restRecord dates i).games_in_last_7_days = gamesInLast7Days dates i := rfl

theorem restRecord_schedule (dates : List ℤ) (i : ℕ) :
    (restRecord dates i).schedule_difficulty =
      calculateScheduleDifficulty (gamesInLast7Days dates i) (daysRest dates i) := rfl

theorem restRecord_fatigue (dates : List ℤ) (i : ℕ) :
    (restRecord dates i).fatigue_index =
      calculateFatigueIndex (daysRest dates i) (gamesInLast7Days dates i)
        (isBackToBack dates i) := rfl

theorem mem_restRecords (dates : List ℤ) (r : RestFatigueRecord) :
    r ∈ restRecords dates ↔ ∃ i, i < dates.length ∧ r = restRecord dates i := by
  unfold restRecords
  simp [List.mem_map, List.mem_range, eq_comm]

theorem calculateFatigueIndex_eq_min (d : ℤ) (g : ℕ) (b : Bool) :
    calculateFatigueIndex d g b =
      min ((if b then (4:ℚ)/10 else 0) +
           (if d = 0 then (3:ℚ)/10 else if d = 1 then 2/10
              else if d = 2 then 1/10 else 0) +
           (if 4 ≤ g then (3:ℚ)/10 else if 3 ≤ g then 2/10 else 0)) 1 := by
  simp only [calculateFatigueIndex, pymin_eq_min]
  cases b <;> split_ifs <;> norm_num

theorem calculateFatigueIndex_nonneg (d : ℤ) (g : ℕ) (b : Bool) :
    0 ≤ calculateFatigueIndex d g b := by
  simp only [calculateFatigueIndex, pymin]
  cases b <;> split_ifs <;> norm_num

theorem calculateFatigueIndex_le_one (d : ℤ) (g : ℕ) (b : Bool) :
    calculateFatigueIndex d g b ≤ 1 := by
  simp only [calculateFatigueIndex, pymin]
  cases b <;> split_ifs <;> norm_num

theorem calculateScheduleDifficulty_nonneg (g : ℕ) (d : ℤ) :
    0 ≤ calculateScheduleDifficulty g d := by
  have hg : (0:ℚ) ≤ (g:ℚ)/7 := by positivity
  simp only [calculateScheduleDifficulty, pymin, pymax]
  split_ifs <;> linarith

theorem calculateScheduleDifficulty_le (g : ℕ) (d : ℤ) (hd : -1 ≤ d) :
    calculateScheduleDifficulty g d ≤ 17/15 := by
  have hg : (0:ℚ) ≤ (g:ℚ)/7 := by positivity
  have hd' : (-1:ℚ) ≤ (d:ℚ) := by exact_mod_cast hd
  simp only [calculateScheduleDifficulty, pymin, pymax]
  split_ifs <;> linarith

theorem calculateScheduleDifficulty_le_one (g : ℕ) (d : ℤ) (hd : 0 ≤ d) :
    calculateScheduleDifficulty g d ≤ 1 := by
  have hg : (0:ℚ) ≤ (g:ℚ)/7 := by positivity
  have hd' : (0:ℚ) ≤ (d:ℚ) := by exact_mod_cast hd
  simp only [calculateScheduleDifficulty, pymin, pymax]
  split_ifs <;> linarith

theorem daysRest_ge_neg_one (dates : List ℤ) (hs : List.Sorted (· ≤ ·) dates)
    (i : ℕ) (hi : i < dates.length) : -1 ≤ daysRest dates i := by
  unfold daysRest
  split_ifs with h
  · norm_num
  · have h1 : i - 1 < dates.length := by omega
    have hmono : dates.getD (i - 1) 0 ≤ dates.getD i 0 := by
      rw [List.getD_eq_getElem _ _ hi, List.getD_eq_getElem _ _ h1]
      have := hs.rel_get_of_le (a := ⟨i - 1, h1⟩) (b := ⟨i, hi⟩)
        (by simp [Fin.le_def])
      simpa [List.get_eq_getElem] using this
    omega

/-! ## Claim theorems: rest/fatigue -/

/-- C1: every output record's `fatigue_index` equals `min(sum, 1.0)` for the
additive sum `+0.4` if back-to-back, `+0.3`/`+0.2`/`+0.1` for 0/1/2 days of
rest, `+0.3`/`+0.2` for ≥4/≥3 games in the last 7 days; both zero-rest
bonuses fire together, so a team playing on day 0 and day 1 gets a day-1
record with `days_rest = 0`, `is_back_to_back = True`, `fatigue_index ≥ 0.7`. -/
theorem fatigue_index_additive_formula (dates : List ℤ) (r : RestFatigueRecord)
    (h : r ∈ restRecords dates) :
    (r.fatigue_index =
      min ((if r.is_back_to_back then (4:ℚ)/10 else 0) +
           (if r.days_rest = 0 then (3:ℚ)/10 else if r.days_rest = 1 then 2/10
              else if r.days_rest = 2 then 1/10 else 0) +
           (if 4 ≤ r.games_in_last_7_days then (3:ℚ)/10
              else if 3 ≤ r.games_in_last_7_days then 2/10 else 0)) 1) ∧
    ((restRecords [0, 1]).getD 1 default).days_rest = 0 ∧
    ((restRecords [0, 1]).getD 1 default).is_back_to_back = true ∧
    (7:ℚ)/10 ≤ ((restRecords [0, 1]).getD 1 default).fatigue_index := by
  refine ⟨?_, by with_unfolding_all decide, by with_unfolding_all decide,
    by with_unfolding_all decide⟩
  obtain ⟨i, hi, rfl⟩ := (mem_restRecords dates r).mp h
  exact calculateFatigueIndex_eq_min (daysRest dates i) (gamesInLast7Days dates i)
    (isBackToBack dates i)

theorem fatigue_index_additive_formula_witness :
    ((restRecord [0, 1] 1).fatigue_index =
      min ((if (restRecord [0, 1] 1).is_back_to_back then (4:ℚ)/10 else 0) +
           (if (restRecord [0, 1] 1).days_rest = 0 then (3:ℚ)/10
              else if (restRecord [0, 1] 1).days_rest = 1 then 2/10
              else if (restRecord [0, 1] 1).days_rest = 2 then 1/10 else 0) +
           (if 4 ≤ (restRecord [0, 1] 1).games_in_last_7_days then (3:ℚ)/10
              else if 3 ≤ (restRecord [0, 1] 1).games_in_last_7_days then 2/10
              else 0)) 1) ∧
    ((restRecords [0, 1]).getD 1 default).days_rest = 0 ∧
    ((restRecords [0, 1]).getD 1 default).is_back_to_back = true ∧
    (7:ℚ)/10 ≤ ((restRecords [0, 1]).getD 1 default).fatigue_index :=
  fatigue_index_additive_formula [0, 1] (restRecord [0, 1] 1)
    (by with_unfolding_all decide)

/-- C3 counterexample: for a team with a single game, the produced record has
`days_rest = 0` but `is_back_to_back = false`, so `is_back_to_back` is NOT
true iff `days_rest == 0` on the record for the first game. -/
theorem first_game_b2b_iff_counterexample :
    ∃ r ∈ restRecords [(0:ℤ)],
      r.days_rest = 0 ∧ ¬ (r.is_back_to_back = true) := by
  with_unfolding_all decide

/-- C3 amended: for every produced record, `is_back_to_back` is true iff the
game is not the team's first (index ≥ 1) and `days_rest == 0`; the first
game's record always has `is_back_to_back = false` (with `days_rest = 0`). -/
theorem back_to_back_iff_zero_rest_after_first (dates : List ℤ) (i : ℕ)
    (hi : i < dates.length) :
    (restRecord dates i).is_back_to_back = true ↔
      1 ≤ i ∧ (restRecord dates i).days_rest = 0 := by
  simp only [restRecord_is_back_to_back, restRecord_days_rest, isBackToBack]
  split_ifs with h
  · simp [h]
  · simp [decide_eq_true_eq, Nat.one_le_iff_ne_zero, h]

theorem back_to_back_iff_zero_rest_after_first_witness :
    ((restRecord [0, 1] 1).is_back_to_back = true ↔
      1 ≤ 1 ∧ (restRecord [0, 1] 1).days_rest = 0) :=
  back_to_back_iff_zero_rest_after_first [0, 1] 1 (by decide)

/-- C4: the record for the first game of a team's date-sorted list has
`days_rest = 0` and `is_back_to_back = false`; for every later game,
`days_rest = (date[i] - date[i-1]).days - 1` with no clamping below 0
(two games on the same date yield `days_rest = -1`). -/
theorem days_rest_first_and_gap (dates : List ℤ) (i : ℕ)
    (hi : i < dates.length) :
    ((restRecord dates 0).days_rest = 0 ∧
     (restRecord dates 0).is_back_to_back = false) ∧
    (1 ≤ i →
      (restRecord dates i).days_rest =
        dates.getD i 0 - dates.getD (i - 1) 0 - 1) ∧
    ((restRecords [(5:ℤ), 5]).getD 1 default).days_rest = -1 := by
  refine ⟨⟨rfl, rfl⟩, ?_, by with_unfolding_all decide⟩
  intro h1
  simp only [restRecord_days_rest, daysRest]
  rw [if_neg (by omega)]

theorem days_rest_first_and_gap_witness :
    (((restRecord [(5:ℤ), 5] 0).days_rest = 0 ∧
      (restRecord [(5:ℤ), 5] 0).is_back_to_back = false) ∧
     (1 ≤ 1 →
       (restRecord [(5:ℤ), 5] 1).days_rest =
         ([(5:ℤ), 5].getD 1 0 - [(5:ℤ), 5].getD 0 0 - 1)) ∧
     ((restRecords [(5:ℤ), 5]).getD 1 default).days_rest = -1) :=
  days_rest_first_and_gap [(5:ℤ), 5] 1 (by decide)

/-- C2 counterexample: for a (date-sorted) schedule of eight games all on the
same day, the eighth record has `schedule_difficulty = 17/15 > 1`: the claim
that `schedule_difficulty` always lies in `[0, 1]` is false. -/
theorem schedule_difficulty_above_one_counterexample :
    List.Sorted (· ≤ ·) (List.replicate 8 (0:ℤ)) ∧
    ∃ r ∈ restRecords (List.replicate 8 (0:ℤ)),
      r.schedule_difficulty = 17/15 ∧ ¬ (r.schedule_difficulty ≤ 1) := by
  with_unfolding_all decide

/-- C2 amended: for every record produced from a date-sorted game list,
`fatigue_index` lies in `[0, 1]` and `schedule_difficulty` lies in
`[0, 17/15]`; `schedule_difficulty ≤ 1` holds whenever `days_rest ≥ 0`
(it can exceed 1 only on a record with negative `days_rest`, i.e. two games
on the same date). -/
theorem fatigue_and_schedule_bounds (dates : List ℤ)
    (hs : List.Sorted (· ≤ ·) dates) (r : RestFatigueRecord)
    (h : r ∈ restRecords dates) :
    0 ≤ r.fatigue_index ∧ r.fatigue_index ≤ 1 ∧
    0 ≤ r.schedule_difficulty ∧ r.schedule_difficulty ≤ 17/15 ∧
    (0 ≤ r.days_rest → r.schedule_difficulty ≤ 1) := by
  obtain ⟨i, hi, rfl⟩ := (mem_restRecords dates r).mp h
  exact ⟨calculateFatigueIndex_nonneg _ _ _, calculateFatigueIndex_le_one _ _ _,
    calculateScheduleDifficulty_nonneg _ _,
    calculateScheduleDifficulty_le _ _ (daysRest_ge_neg_one dates hs i hi),
    fun hd => calculateScheduleDifficulty_le_one _ _ hd⟩

theorem fatigue_and_schedule_bounds_witness :
    0 ≤ (restRecord [0, 1] 1).fatigue_index ∧
    (restRecord [0, 1] 1).fatigue_index ≤ 1 ∧
    0 ≤ (restRecord [0, 1] 1).schedule_difficulty ∧
    (restRecord [0, 1] 1).schedule_difficulty ≤ 17/15 ∧
    (0 ≤ (restRecord [0, 1] 1).days_rest →
      (restRecord [0, 1] 1).schedule_difficulty ≤ 1) :=
  fatigue_and_schedule_bounds [0, 1] (by decide) (restRecord [0, 1] 1)
    (by with_unfolding_all decide)

/-! ## Counting lemmas for the 7-day window -/

theorem length_filter_and_le (l : List ℕ) (p q : ℕ → Bool) :
    (l.filter (fun a => p a && q a)).length ≤ (l.filter p).length := by
  induction l with
  | nil => simp
  | cons a t ih =>
    cases hp : p a <;> cases hq : q a <;>
      simp [List.filter_cons, hp, hq] <;> omega

theorem length_filter_range_ge (n a : ℕ) :
    ((List.range n).filter (fun j => decide (a ≤ j))).length = n - a := by
  induction n with
  | zero => simp
  | succ n ih =>
    rw [List.range_succ, List.filter_append, List.length_append, ih]
    by_cases h : a ≤ n
    · simp only [List.filter_cons, List.filter_nil, decide_eq_true_eq, if_pos h]
      simp
      omega
    · simp only [List.filter_cons, List.filter_nil, decide_eq_true_eq, if_neg h]
      simp
      omega

theorem card_filter_range_eq_length (n : ℕ) (p : ℕ → Prop) [DecidablePred p] :
    ((Finset.range n).filter p).card =
      ((List.range n).filter (fun j => decide (p j))).length := by
  induction n with
  | zero => simp
  | succ n ih =>
    rw [Finset.range_succ, Finset.filter_insert, List.range_succ,
      List.filter_append, List.length_append]
    by_cases h : p n
    · rw [if_pos h, Finset.card_insert_of_not_mem (by simp)]
      simp [h, ih]
    · rw [if_neg h]
      simp [h, ih]

theorem Ico_filter_card_eq (a b : ℕ) (q : ℕ → Prop) [DecidablePred q] :
    ((Finset.Ico a b).filter q).card =
      ((Finset.range b).filter (fun j => a ≤ j ∧ q j)).card := by
  congr 1
  ext j
  simp only [Finset.mem_filter, Finset.mem_Ico, Finset.mem_range]
  tauto

/-- C5: `games_in_last_7_days` at index `i` is 1 (the current game) plus the
number of indices `j` in `[max(0, i-10), i)` whose date is at most 7 days
before the current game's; games beyond the 10 preceding ones are never
counted, so 12 same-day games still yield only 11 for the last one. -/
theorem games_in_last_7_days_count (dates : List ℤ) (i : ℕ)
    (hi : i < dates.length) :
    (restRecord dates i).games_in_last_7_days =
      1 + ((Finset.Ico (i - 10) i).filter
            (fun j => dates.getD i 0 - dates.getD j 0 ≤ 7)).card ∧
    ((restRecords (List.replicate 12 (0:ℤ))).getD 11
        default).games_in_last_7_days = 11 := by
  refine ⟨?_, by with_unfolding_all decide⟩
  rw [restRecord_games]
  unfold gamesInLast7Days
  rw [Ico_filter_card_eq, card_filter_range_eq_length]
  congr 1
  refine congrArg List.length (List.filter_congr ?_)
  intro j _
  by_cases h1 : i - 10 ≤ j <;>
    by_cases h2 : dates.getD i 0 - dates.getD j 0 ≤ 7 <;> simp [h1, h2]

theorem games_in_last_7_days_count_witness :
    ((restRecord (List.replicate 12 (0:ℤ)) 11).games_in_last_7_days =
      1 + ((Finset.Ico (11 - 10) 11).filter
            (fun j => (List.replicate 12 (0:ℤ)).getD 11 0 -
              (List.replicate 12 (0:ℤ)).getD j 0 ≤ 7)).card ∧
     ((restRecords (List.replicate 12 (0:ℤ))).getD 11
        default).games_in_last_7_days = 11) :=
  games_in_last_7_days_count (List.replicate 12 (0:ℤ)) 11 (by decide)

/-- C9: every produced record has `games_in_last_7_days` between 1 and 11
(the current game plus at most the 10 looked-back games). -/
theorem games_in_last_7_days_range (dates : List ℤ) (r : RestFatigueRecord)
    (h : r ∈ restRecords dates) :
    1 ≤ r.games_in_last_7_days ∧ r.games_in_last_7_days ≤ 11 := by
  obtain ⟨i, hi, rfl⟩ := (mem_restRecords dates r).mp h
  rw [restRecord_games]
  unfold gamesInLast7Days
  refine ⟨by omega, ?_⟩
  have h1 : ((List.range i).filter
      (fun j => decide (i - 10 ≤ j) &&
        decide (dates.getD i 0 - dates.getD j 0 ≤ 7))).length ≤
      ((List.range i).filter (fun j => decide (i - 10 ≤ j))).length :=
    length_filter_and_le (List.range i) (fun j => decide (i - 10 ≤ j))
      (fun j => decide (dates.getD i 0 - dates.getD j 0 ≤ 7))
  have h2 := length_filter_range_ge i (i - 10)
  omega

theorem games_in_last_7_days_range_witness :
    1 ≤ (restRecord [0, 1] 1).games_in_last_7_days ∧
    (restRecord [0, 1] 1).games_in_last_7_days ≤ 11 :=
  games_in_last_7_days_range [0, 1] (restRecord [0, 1] 1)
    (by with_unfolding_all decide)

/-! ## Helper lemmas: chemistry -/

theorem pymin_le_left (a b : ℚ) : pymin a b ≤ a := by
  rw [pymin_eq_min]; exact min_le_left a b

theorem pymin_le_right (a b : ℚ) : pymin a b ≤ b := by
  rw [pymin_eq_min]; exact min_le_right a b

theorem le_pymin (c a b : ℚ) (h1 : c ≤ a) (h2 : c ≤ b) : c ≤ pymin a b := by
  rw [pymin_eq_min]; exact le_min h1 h2

theorem left_le_pymax (a b : ℚ) : a ≤ pymax a b := by
  rw [pymax_eq_max]; exact le_max_left a b

theorem right_le_pymax (a b : ℚ) : b ≤ pymax a b := by
  rw [pymax_eq_max]; exact le_max_right a b

theorem pymax_le (a b c : ℚ) (h1 : a ≤ c) (h2 : b ≤ c) : pymax a b ≤ c := by
  rw [pymax_eq_max]; exact max_le h1 h2

theorem foldl_pymin_le (t : List ℚ) (a : ℚ) :
    t.foldl pymin a ≤ a ∧ ∀ v ∈ t, t.foldl pymin a ≤ v := by
  induction t generalizing a with
  | nil => simp
  | cons x t ih =>
    have h := ih (pymin a x)
    refine ⟨le_trans h.1 (pymin_le_left a x), ?_⟩
    intro v hv
    rcases List.mem_cons.mp hv with rfl | hv
    · exact le_trans h.1 (pymin_le_right a v)
    · exact h.2 v hv

theorem le_foldl_pymin (t : List ℚ) (a c : ℚ) (h1 : c ≤ a)
    (h2 : ∀ v ∈ t, c ≤ v) : c ≤ t.foldl pymin a := by
  induction t generalizing a with
  | nil => simpa using h1
  | cons x t ih =>
    exact ih (pymin a x)
      (le_pymin c a x h1 (h2 x (List.mem_cons_self x t)))
      (fun v hv => h2 v (List.mem_cons_of_mem x hv))

theorem le_foldl_pymax (t : List ℚ) (a : ℚ) :
    a ≤ t.foldl pymax a ∧ ∀ v ∈ t, v ≤ t.foldl pymax a := by
  induction t generalizing a with
  | nil => simp
  | cons x t ih =>
    have h := ih (pymax a x)
    refine ⟨le_trans (left_le_pymax a x) h.1, ?_⟩
    intro v hv
    rcases List.mem_cons.mp hv with rfl | hv
    · exact le_trans (right_le_pymax a v) h.1
    · exact h.2 v hv

theorem foldl_pymax_le (t : List ℚ) (a c : ℚ) (h1 : a ≤ c)
    (h2 : ∀ v ∈ t, v ≤ c) : t.foldl pymax a ≤ c := by
  induction t generalizing a with
  | nil => simpa using h1
  | cons x t ih =>
    exact ih (pymax a x)
      (pymax_le a x c h1 (h2 x (List.mem_cons_self x t)))
      (fun v hv => h2 v (List.mem_cons_of_mem x hv))

theorem colMin_le_of_mem (l : List ℚ) (v : ℚ) (h : v ∈ l) : colMin l ≤ v := by
  match l with
  | [] => simp at h
  | x :: t =>
    rcases List.mem_cons.mp h with rfl | hv
    · exact (foldl_pymin_le t v).1
    · exact (foldl_pymin_le t x).2 v hv

theorem le_colMax_of_mem (l : List ℚ) (v : ℚ) (h : v ∈ l) : v ≤ colMax l := by
  match l with
  | [] => simp at h
  | x :: t =>
    rcases List.mem_cons.mp h with rfl | hv
    · exact (le_foldl_pymax t v).1
    · exact (le_foldl_pymax t x).2 v hv

theorem le_colMin (l : List ℚ) (c : ℚ) (hne : l ≠ [])
    (h : ∀ v ∈ l, c ≤ v) : c ≤ colMin l := by
  match l with
  | [] => exact absurd rfl hne
  | x :: t =>
    exact le_foldl_pymin t x c (h x (List.mem_cons_self x t))
      (fun v hv => h v (List.mem_cons_of_mem x hv))

theorem colMax_le (l : List ℚ) (c : ℚ) (hne : l ≠ [])
    (h : ∀ v ∈ l, v ≤ c) : colMax l ≤ c := by
  match l with
  | [] => exact absurd rfl hne
  | x :: t =>
    exact foldl_pymax_le t x c (h x (List.mem_cons_self x t))
      (fun v hv => h v (List.mem_cons_of_mem x hv))

theorem minMaxScale100_bounds (mn mx v : ℚ) (h1 : mn ≤ v) (h2 : v ≤ mx) :
    0 ≤ minMaxScale100 mn mx v ∧ minMaxScale100 mn mx v ≤ 100 := by
  unfold minMaxScale100
  by_cases h : mx = mn
  · have hv : v = mn := le_antisymm (h ▸ h2) h1
    rw [if_pos h, hv]
    norm_num
  · rw [if_neg h]
    have hlt : mn < mx := lt_of_le_of_ne (le_trans h1 h2) (Ne.symm h)
    have hd : 0 < mx - mn := by linarith
    constructor
    · have := div_nonneg (by linarith : (0:ℚ) ≤ v - mn) (le_of_lt hd)
      linarith
    · have : (v - mn) / (mx - mn) ≤ 1 := by
        rw [div_le_one hd]; linarith
      linarith

theorem scaledIn_bounds (col : List ℚ) (v : ℚ) (h : v ∈ col) :
    0 ≤ scaledIn col v ∧ scaledIn col v ≤ 100 :=
  minMaxScale100_bounds _ _ _ (colMin_le_of_mem col v h) (le_colMax_of_mem col v h)

theorem scaledIn_spec (col : List ℚ) (v : ℚ) (hv : v ∈ col) :
    (colMin col = colMax col → scaledIn col v = 0) ∧
    (colMin col ≠ colMax col →
      scaledIn col v = (v - colMin col) / (colMax col - colMin col) * 100 ∧
      (v = colMax col → scaledIn col v = 100) ∧
      (v = colMin col → scaledIn col v = 0)) := by
  unfold scaledIn minMaxScale100
  constructor
  · intro h
    have hv' : v = colMin col :=
      le_antisymm (h ▸ le_colMax_of_mem col v hv) (colMin_le_of_mem col v hv)
    rw [hv']
    simp
  · intro h
    have hne : colMax col - colMin col ≠ 0 := fun hz => h (by linarith)
    rw [if_neg (fun hz => h hz.symm)]
    refine ⟨rfl, fun hmax => ?_, fun hmin => ?_⟩
    · rw [hmax, div_self hne]; norm_num
    · rw [hmin]; simp

theorem mem_calculateChemistryIndex (records : List ChemistryInput)
    (o : ChemistryOutput) :
    o ∈ calculateChemistryIndex records ↔
      ∃ r ∈ records, o = chemistryOutputFor records r := by
  unfold calculateChemistryIndex
  simp [List.mem_map, eq_comm]

theorem chemistryOutputFor_input (records : List ChemistryInput)
    (r : ChemistryInput) : (chemistryOutputFor records r).input = r := rfl

/-! ## Claim theorems: chemistry -/

/-- C6: each of the four metric columns is min-max scaled to `[0, 100]`
independently: on a non-constant column the maximum raw value scales to 100
and the minimum to 0 via `(value - col_min) / (col_max - col_min) * 100`;
on a constant column (including a single-team cohort) every scaled value is
0, never undefined. -/
theorem minmax_scaling_extremes (records : List ChemistryInput)
    (o : ChemistryOutput) (h : o ∈ calculateChemistryIndex records) :
    ((colMin (screenCol records) = colMax (screenCol records) →
        o.screen_assists_scaled = 0) ∧
     (colMin (screenCol records) ≠ colMax (screenCol records) →
        o.screen_assists_scaled =
          (metricVal o.input.screen_assists - colMin (screenCol records)) /
            (colMax (screenCol records) - colMin (screenCol records)) * 100 ∧
        (metricVal o.input.screen_assists = colMax (screenCol records) →
          o.screen_assists_scaled = 100) ∧
        (metricVal o.input.screen_assists = colMin (screenCol records) →
          o.screen_assists_scaled = 0))) ∧
    ((colMin (secondaryCol records) = colMax (secondaryCol records) →
        o.secondary_assists_scaled = 0) ∧
     (colMin (secondaryCol records) ≠ colMax (secondaryCol records) →
        o.secondary_assists_scaled =
          (metricVal o.input.secondary_assists - colMin (secondaryCol records)) /
            (colMax (secondaryCol records) - colMin (secondaryCol records)) * 100 ∧
        (metricVal o.input.secondary_assists = colMax (secondaryCol records) →
          o.secondary_assists_scaled = 100) ∧
        (metricVal o.input.secondary_assists = colMin (secondaryCol records) →
          o.secondary_assists_scaled = 0))) ∧
    ((colMin (contestedCol records) = colMax (contestedCol records) →
        o.contested_shots_scaled = 0) ∧
     (colMin (contestedCol records) ≠ colMax (contestedCol records) →
        o.contested_shots_scaled =
          (metricVal o.input.contested_shots - colMin (contestedCol records)) /
            (colMax (contestedCol records) - colMin (contestedCol records)) * 100 ∧
        (metricVal o.input.contested_shots = colMax (contestedCol records) →
          o.contested_shots_scaled = 100) ∧
        (metricVal o.input.contested_shots = colMin (contestedCol records) →
          o.contested_shots_scaled = 0))) ∧
    ((colMin (deflectionsCol records) = colMax (deflectionsCol records) →
        o.deflections_scaled = 0) ∧
     (colMin (deflectionsCol records) ≠ colMax (deflectionsCol records) →
        o.deflections_scaled =
          (metricVal o.input.deflections - colMin (deflectionsCol records)) /
            (colMax (deflectionsCol records) - colMin (deflectionsCol records)) * 100 ∧
        (metricVal o.input.deflections = colMax (deflectionsCol records) →
          o.deflections_scaled = 100) ∧
        (metricVal o.input.deflections = colMin (deflectionsCol records) →
          o.deflections_scaled = 0))) := by
  obtain ⟨r, hr, rfl⟩ := (mem_calculateChemistryIndex records o).mp h
  exact ⟨scaledIn_spec _ _ (List.mem_map_of_mem _ hr),
    scaledIn_spec _ _ (List.mem_map_of_mem _ hr),
    scaledIn_spec _ _ (List.mem_map_of_mem _ hr),
    scaledIn_spec _ _ (List.mem_map_of_mem _ hr)⟩

/-- C7: each output record's `chemistry_index` is the unweighted mean of its
own four scaled metric values, and lies in `[0, 100]`. -/
theorem chemistry_index_mean_of_scaled (records : List ChemistryInput)
    (o : ChemistryOutput) (h : o ∈ calculateChemistryIndex records) :
    o.chemistry_index =
      (o.screen_assists_scaled + o.secondary_assists_scaled +
       o.contested_shots_scaled + o.deflections_scaled) / 4 ∧
    0 ≤ o.chemistry_index ∧ o.chemistry_index ≤ 100 := by
  obtain ⟨r, hr, rfl⟩ := (mem_calculateChemistryIndex records o).mp h
  have h1 := scaledIn_bounds (screenCol records) (metricVal r.screen_assists)
    (List.mem_map_of_mem _ hr)
  have h2 := scaledIn_bounds (secondaryCol records) (metricVal r.secondary_assists)
    (List.mem_map_of_mem _ hr)
  have h3 := scaledIn_bounds (contestedCol records) (metricVal r.contested_shots)
    (List.mem_map_of_mem _ hr)
  have h4 := scaledIn_bounds (deflectionsCol records) (metricVal r.deflections)
    (List.mem_map_of_mem _ hr)
  have hs : (chemistryOutputFor records r).chemistry_index =
      (scaledIn (screenCol records) (metricVal r.screen_assists) +
       scaledIn (secondaryCol records) (metricVal r.secondary_assists) +
       scaledIn (contestedCol records) (metricVal r.contested_shots) +
       scaledIn (deflectionsCol records) (metricVal r.deflections)) / 4 := rfl
  refine ⟨rfl, ?_, ?_⟩
  · rw [hs]; linarith [h1.1, h2.1, h3.1, h4.1]
  · rw [hs]; linarith [h1.2, h2.2, h3.2, h4.2]

theorem minmax_scaling_extremes_witness :
    ((colMin (screenCol [sampleMissing, sampleFull]) =
        colMax (screenCol [sampleMissing, sampleFull]) →
        (chemistryOutputFor [sampleMissing, sampleFull]
          sampleFull).screen_assists_scaled = 0) ∧
     (colMin (screenCol [sampleMissing, sampleFull]) ≠
        colMax (screenCol [sampleMissing, sampleFull]) →
        (chemistryOutputFor [sampleMissing, sampleFull]
          sampleFull).screen_assists_scaled =
          (metricVal (chemistryOutputFor [sampleMissing, sampleFull]
              sampleFull).input.screen_assists -
            colMin (screenCol [sampleMissing, sampleFull])) /
            (colMax (screenCol [sampleMissing, sampleFull]) -
             colMin (screenCol [sampleMissing, sampleFull])) * 100 ∧
        (metricVal (chemistryOutputFor [sampleMissing, sampleFull]
            sampleFull).input.screen_assists =
            colMax (screenCol [sampleMissing, sampleFull]) →
          (chemistryOutputFor [sampleMissing, sampleFull]
            sampleFull).screen_assists_scaled = 100) ∧
        (metricVal (chemistryOutputFor [sampleMissing, sampleFull]
            sampleFull).input.screen_assists =
            colMin (screenCol [sampleMissing, sampleFull]) →
          (chemistryOutputFor [sampleMissing, sampleFull]
            sampleFull).screen_assists_scaled = 0))) ∧
    ((colMin (secondaryCol [sampleMissing, sampleFull]) =
        colMax (secondaryCol [sampleMissing, sampleFull]) →
        (chemistryOutputFor [sampleMissing, sampleFull]
          sampleFull).secondary_assists_scaled = 0) ∧
     (colMin (secondaryCol [sampleMissing, sampleFull]) ≠
        colMax (secondaryCol [sampleMissing, sampleFull]) →
        (chemistryOutputFor [sampleMissing, sampleFull]
          sampleFull).secondary_assists_scaled =
          (metricVal (chemistryOutputFor [sampleMissing, sampleFull]
              sampleFull).input.secondary_assists -
            colMin (secondaryCol [sampleMissing, sampleFull])) /
            (colMax (secondaryCol [sampleMissing, sampleFull]) -
             colMin (secondaryCol [sampleMissing, sampleFull])) * 100 ∧
        (metricVal (chemistryOutputFor [sampleMissing, sampleFull]
            sampleFull).input.secondary_assists =
            colMax (secondaryCol [sampleMissing, sampleFull]) →
          (chemistryOutputFor [sampleMissing, sampleFull]
            sampleFull).secondary_assists_scaled = 100) ∧
        (metricVal (chemistryOutputFor [sampleMissing, sampleFull]
            sampleFull).input.secondary_assists =
            colMin (secondaryCol [sampleMissing, sampleFull]) →
          (chemistryOutputFor [sampleMissing, sampleFull]
            sampleFull).secondary_assists_scaled = 0))) ∧
    ((colMin (contestedCol [sampleMissing, sampleFull]) =
        colMax (contestedCol [sampleMissing, sampleFull]) →
        (chemistryOutputFor [sampleMissing, sampleFull]
          sampleFull).contested_shots_scaled = 0) ∧
     (colMin (contestedCol [sampleMissing, sampleFull]) ≠
        colMax (contestedCol [sampleMissing, sampleFull]) →
        (chemistryOutputFor [sampleMissing, sampleFull]
          sampleFull).contested_shots_scaled =
          (metricVal (chemistryOutputFor [sampleMissing, sampleFull]
              sampleFull).input.contested_shots -
            colMin (contestedCol [sampleMissing, sampleFull])) /
            (colMax (contestedCol [sampleMissing, sampleFull]) -
             colMin (contestedCol [sampleMissing, sampleFull])) * 100 ∧
        (metricVal (chemistryOutputFor [sampleMissing, sampleFull]
            sampleFull).input.contested_shots =
            colMax (contestedCol [sampleMissing, sampleFull]) →
          (chemistryOutputFor [sampleMissing, sampleFull]
            sampleFull).contested_shots_scaled = 100) ∧
        (metricVal (chemistryOutputFor [sampleMissing, sampleFull]
            sampleFull).input.contested_shots =
            colMin (contestedCol [sampleMissing, sampleFull]) →
          (chemistryOutputFor [sampleMissing, sampleFull]
            sampleFull).contested_shots_scaled = 0))) ∧
    ((colMin (deflectionsCol [sampleMissing, sampleFull]) =
        colMax (deflectionsCol [sampleMissing, sampleFull]) →
        (chemistryOutputFor [sampleMissing, sampleFull]
          sampleFull).deflections_scaled = 0) ∧
     (colMin (deflectionsCol [sampleMissing, sampleFull]) ≠
        colMax (deflectionsCol [sampleMissing, sampleFull]) →
        (chemistryOutputFor [sampleMissing, sampleFull]
          sampleFull).deflections_scaled =
          (metricVal (chemistryOutputFor [sampleMissing, sampleFull]
              sampleFull).input.deflections -
            colMin (deflectionsCol [sampleMissing, sampleFull])) /
            (colMax (deflectionsCol [sampleMissing, sampleFull]) -
             colMin (deflectionsCol [sampleMissing, sampleFull])) * 100 ∧
        (metricVal (chemistryOutputFor [sampleMissing, sampleFull]
            sampleFull).input.deflections =
            colMax (deflectionsCol [sampleMissing, sampleFull]) →
          (chemistryOutputFor [sampleMissing, sampleFull]
            sampleFull).deflections_scaled = 100) ∧
        (metricVal (chemistryOutputFor [sampleMissing, sampleFull]
            sampleFull).input.deflections =
            colMin (deflectionsCol [sampleMissing, sampleFull]) →
          (chemistryOutputFor [sampleMissing, sampleFull]
            sampleFull).deflections_scaled = 0))) :=
  minmax_scaling_extremes [sampleMissing, sampleFull]
    (chemistryOutputFor [sampleMissing, sampleFull] sampleFull)
    (by with_unfolding_all decide)

theorem chemistry_index_mean_of_scaled_witness :
    (chemistryOutputFor [sampleMissing, sampleFull] sampleFull).chemistry_index =
      ((chemistryOutputFor [sampleMissing, sampleFull]
          sampleFull).screen_assists_scaled +
       (chemistryOutputFor [sampleMissing, sampleFull]
          sampleFull).secondary_assists_scaled +
       (chemistryOutputFor [sampleMissing, sampleFull]
          sampleFull).contested_shots_scaled +
       (chemistryOutputFor [sampleMissing, sampleFull]
          sampleFull).deflections_scaled) / 4 ∧
    0 ≤ (chemistryOutputFor [sampleMissing, sampleFull]
          sampleFull).chemistry_index ∧
    (chemistryOutputFor [sampleMissing, sampleFull]
          sampleFull).chemistry_index ≤ 100 :=
  chemistry_index_mean_of_scaled [sampleMissing, sampleFull]
    (chemistryOutputFor [sampleMissing, sampleFull] sampleFull)
    (by with_unfolding_all decide)

theorem scaledIn_zero_eq_zero (col : List ℚ) (h0 : (0:ℚ) ∈ col)
    (hnn : ∀ v ∈ col, 0 ≤ v) : scaledIn col 0 = 0 := by
  unfold scaledIn
  have hmin : colMin col = 0 :=
    le_antisymm (colMin_le_of_mem col 0 h0)
      (le_colMin col 0 (List.ne_nil_of_mem h0) hnn)
  rw [hmin]
  unfold minMaxScale100
  simp

/-- C8: a team record missing any of the four metric fields has the missing
values read as 0 (never an error), and when every cohort metric is
non-negative with at least one positive value per column, a team whose four
metrics are all missing or 0 gets all four scaled values 0 and
`chemistry_index = 0`, not an error. -/
theorem missing_metrics_default_zero (records : List ChemistryInput)
    (r : ChemistryInput) (hr : r ∈ records)
    (hmiss : metricVal r.screen_assists = 0 ∧
      metricVal r.secondary_assists = 0 ∧
      metricVal r.contested_shots = 0 ∧ metricVal r.deflections = 0)
    (hnn : ∀ x ∈ records, 0 ≤ metricVal x.screen_assists ∧
      0 ≤ metricVal x.secondary_assists ∧
      0 ≤ metricVal x.contested_shots ∧ 0 ≤ metricVal x.deflections)
    (hpos : (∃ x ∈ records, 0 < metricVal x.screen_assists) ∧
      (∃ x ∈ records, 0 < metricVal x.secondary_assists) ∧
      (∃ x ∈ records, 0 < metricVal x.contested_shots) ∧
      (∃ x ∈ records, 0 < metricVal x.deflections)) :
    metricVal (none : Option ℚ) = 0 ∧
    ∀ o ∈ calculateChemistryIndex records, o.input = r →
      o.screen_assists_scaled = 0 ∧ o.secondary_assists_scaled = 0 ∧
      o.contested_shots_scaled = 0 ∧ o.deflections_scaled = 0 ∧
      o.chemistry_index = 0 := by
  refine ⟨rfl, ?_⟩
  intro o ho hinput
  obtain ⟨x, hx, rfl⟩ := (mem_calculateChemistryIndex records o).mp ho
  have hxr : x = r := hinput
  subst hxr
  have h01 : (0:ℚ) ∈ screenCol records := by
    rw [← hmiss.1]; exact List.mem_map_of_mem _ hr
  have h02 : (0:ℚ) ∈ secondaryCol records := by
    rw [← hmiss.2.1]; exact List.mem_map_of_mem _ hr
  have h03 : (0:ℚ) ∈ contestedCol records := by
    rw [← hmiss.2.2.1]; exact List.mem_map_of_mem _ hr
  have h04 : (0:ℚ) ∈ deflectionsCol records := by
    rw [← hmiss.2.2.2]; exact List.mem_map_of_mem _ hr
  have hnn1 : ∀ v ∈ screenCol records, 0 ≤ v := by
    intro v hv
    obtain ⟨y, hy, rfl⟩ := List.mem_map.mp hv
    exact (hnn y hy).1
  have hnn2 : ∀ v ∈ secondaryCol records, 0 ≤ v := by
    intro v hv
    obtain ⟨y, hy, rfl⟩ := List.mem_map.mp hv
    exact (hnn y hy).2.1
  have hnn3 : ∀ v ∈ contestedCol records, 0 ≤ v := by
    intro v hv
    obtain ⟨y, hy, rfl⟩ := List.mem_map.mp hv
    exact (hnn y hy).2.2.1
  have hnn4 : ∀ v ∈ deflectionsCol records, 0 ≤ v := by
    intro v hv
    obtain ⟨y, hy, rfl⟩ := List.mem_map.mp hv
    exact (hnn y hy).2.2.2
  have e1 : scaledIn (screenCol records) (metricVal x.screen_assists) = 0 := by
    rw [hmiss.1]; exact scaledIn_zero_eq_zero _ h01 hnn1
  have e2 : scaledIn (secondaryCol records)
      (metricVal x.secondary_assists) = 0 := by
    rw [hmiss.2.1]; exact scaledIn_zero_eq_zero _ h02 hnn2
  have e3 : scaledIn (contestedCol records)
      (metricVal x.contested_shots) = 0 := by
    rw [hmiss.2.2.1]; exact scaledIn_zero_eq_zero _ h03 hnn3
  have e4 : scaledIn (deflectionsCol records)
      (metricVal x.deflections) = 0 := by
    rw [hmiss.2.2.2]; exact scaledIn_zero_eq_zero _ h04 hnn4
  have hidx : (chemistryOutputFor records x).chemistry_index =
      (scaledIn (screenCol records) (metricVal x.screen_assists) +
       scaledIn (secondaryCol records) (metricVal x.secondary_assists) +
       scaledIn (contestedCol records) (metricVal x.contested_shots) +
       scaledIn (deflectionsCol records) (metricVal x.deflections)) / 4 := rfl
  refine ⟨e1, e2, e3, e4, ?_⟩
  rw [hidx, e1, e2, e3, e4]
  norm_num

theorem missing_metrics_default_zero_witness :
    metricVal (none : Option ℚ) = 0 ∧
    ∀ o ∈ calculateChemistryIndex [sampleMissing, sampleFull],
      o.input = sampleMissing →
      o.screen_assists_scaled = 0 ∧ o.secondary_assists_scaled = 0 ∧
      o.contested_shots_scaled = 0 ∧ o.deflections_scaled = 0 ∧
      o.chemistry_index = 0 :=
  missing_metrics_default_zero [sampleMissing, sampleFull] sampleMissing
    (by with_unfolding_all decide) (by with_unfolding_all decide)
    (by with_unfolding_all decide) (by with_unfolding_all decide)

/-- C10: `_calculate_chemistry_index` returns one output per input, in the
same order, and leaves every field of each input record unchanged, only
adding the derived fields. -/
theorem chemistry_preserves_records (records : List ChemistryInput) :
    (calculateChemistryIndex records).length = records.length ∧
    ∀ i, i < records.length →
      ((calculateChemistryIndex records).getD i default).input =
        records.getD i default := by
  constructor
  · simp [calculateChemistryIndex]
  · intro i hi
    have hi' : i < (calculateChemistryIndex records).length := by
      simpa [calculateChemistryIndex] using hi
    rw [List.getD_eq_getElem _ _ hi', List.getD_eq_getElem _ _ hi]
    simp [calculateChemistryIndex, chemistryOutputFor_input]

theorem chemistry_preserves_records_witness :
    (calculateChemistryIndex [sampleMissing, sampleFull]).length =
      [sampleMissing, sampleFull].length ∧
    ((calculateChemistryIndex [sampleMissing, sampleFull]).getD 0
        default).input = [sampleMissing, sampleFull].getD 0 default :=
  ⟨(chemistry_preserves_records [sampleMissing, sampleFull]).1,
   (chemistry_preserves_records [sampleMissing, sampleFull]).2 0 (by decide)⟩

end NBA
